import Mathlib

/-!
Verification of the IntelliDocX post-OCR text-intelligence pipeline
(`src/extraction.py`, `src/ocr_engine.py`) against its specification.

The Python sources are shallowly embedded below:
* Python `str` values become `String`, positions are character indices;
* Python floats are modelled as exact decimals (`PyFloat`);
* Python `None`-able results become `Option`;
* a Python exception escaping a function becomes `Except Unit`;
* the fragment of the `re` module exercised by the sources (compilation
  of a pattern, `re.search`, `re.findall`, capture groups, the
  `IGNORECASE` flag) is implemented as an executable backtracking
  matcher with Python's leftmost / greedy / first-alternative priority.
-/

set_option maxHeartbeats 3000000

namespace IntelliDocX

/-! ### Python string primitives -/

/-- Python whitespace characters, as matched by `str.strip` and `\s`
(ASCII range; the repository's inputs are ASCII). -/
def isPySpace (c : Char) : Bool :=
  c = ' ' || c = '\t' || c = '\n' || c = '\r' || c = '\x0b' || c = '\x0c'

/-- `str.strip()` : drop Python whitespace from both ends. -/
def pyStrip (s : String) : String :=
  String.mk (((s.data.dropWhile isPySpace).reverse.dropWhile isPySpace).reverse)

/-- `str.lower()` (ASCII). -/
def pyLower (s : String) : String := String.mk (s.data.map Char.toLower)

/-- `str.upper()` (ASCII). -/
def pyUpper (s : String) : String := String.mk (s.data.map Char.toUpper)

/-- Truthiness of a Python string: non-empty. -/
def pyTruthyStr (s : String) : Bool := !(s = "")

/-- Truthiness of an `Optional[str]`: not `None` and not the empty string. -/
def pyTruthyOpt (o : Option String) : Bool :=
  match o with
  | none => false
  | some s => pyTruthyStr s

/-- Python `a or b` on `Optional[str]` values. -/
def pyOrOpt (a b : Option String) : Option String :=
  if pyTruthyOpt a then a else b

/-- `sep.join(parts)` : empty for `[]`, otherwise the parts glued with
`sep` between consecutive elements. -/
def pyJoin (sep : String) : List String → String
  | [] => ""
  | x :: xs => xs.foldl (fun acc y => acc ++ sep ++ y) x

/-- Whitespace-run collapsing, the effect of `re.sub(r"\s+", " ", text)`:
every maximal run of whitespace becomes a single space.  The boolean
records whether the previous character was part of a whitespace run. -/
def collapseWs : Bool → List Char → List Char
  | _, [] => []
  | prevSp, c :: rest =>
    if isPySpace c then
      if prevSp then collapseWs true rest else ' ' :: collapseWs true rest
    else
      c :: collapseWs false rest

/-- `l.startsWith n` on character lists. -/
def listStartsWith : List Char → List Char → Bool
  | [], _ => true
  | _ :: _, [] => false
  | n :: ns, h :: hs => n = h && listStartsWith ns hs

/-- Substring containment (`needle in haystack` on Python strings). -/
def listContains (hay : List Char) (ndl : List Char) : Bool :=
  if listStartsWith ndl hay then true
  else
    match hay with
    | [] => false
    | _ :: t => listContains t ndl

/-- `kw in t` for Python strings. -/
def strContains (t kw : String) : Bool := listContains t.data kw.data

/-- Slice `cs[a:b]` of a character list as a string. -/
def textSlice (cs : List Char) (a b : Nat) : String :=
  String.mk ((cs.drop a).take (b - a))

/-! ### `_norm` (extraction.py line 13) -/

/-- `_norm`: collapse whitespace runs, strip, lowercase. -/
def norm (text : String) : String :=
  pyLower (pyStrip (String.mk (collapseWs false text.data)))

/-! ### Python float parsing (model)

`float(s)` on the strings reachable in `_extract_amount` (digits and at
most one period, commas already eliminated) and on detection scores.
A parsed float is modelled exactly as the decimal it came from. -/

def digitsVal (cs : List Char) : Nat :=
  cs.foldl (fun acc c => acc * 10 + (c.toNat - '0'.toNat)) 0

/-- An exact decimal: the denoted value is `mant / 10 ^ scale`.  The
pipeline only ever constructs floats (it never adds or numerically
compares two of them), and equal decimal strings parse to equal
representations, so this exact model is faithful to the reachable
behaviour. -/
structure PyFloat where
  mant : Int
  scale : Nat
deriving DecidableEq, Repr

/-- The rational a `PyFloat` denotes. -/
def PyFloat.toRat (f : PyFloat) : ℚ := (f.mant : ℚ) / (10 : ℚ) ^ f.scale

/-- Core numeric parse of a sign-free token made of digits and periods. -/
def pyFloatCore (cs : List Char) : Option PyFloat :=
  if cs = [] then none
  else if !(cs.all fun c => c.isDigit || c = '.') then none
  else
    match (cs.filter (· = '.')).length with
    | 0 => some ⟨(digitsVal cs : Int), 0⟩
    | 1 =>
      let ip := cs.takeWhile (· ≠ '.')
      let fp := (cs.dropWhile (· ≠ '.')).drop 1
      if ip = [] && fp = [] then none
      else some ⟨(digitsVal ip * 10 ^ fp.length + digitsVal fp : Int), fp.length⟩
    | _ => none

/-- `float(s)` model: optional sign, surrounding whitespace stripped. -/
def pyFloat (s : String) : Option PyFloat :=
  match (pyStrip s).data with
  | '-' :: rest => (pyFloatCore rest).map (fun f => ⟨-f.mant, f.scale⟩)
  | '+' :: rest => pyFloatCore rest
  | cs => pyFloatCore cs

/-! ### `_extract_amount` (extraction.py lines 60-82) -/

/-- The character filter `re.sub(r"[^\d,\.]", "", s)`: keep digits,
commas and periods only. -/
def amountKeep (s : String) : String :=
  String.mk (s.data.filter fun c => c.isDigit || c = ',' || c = '.')

def countComma (s : String) : Nat := (s.data.filter (· = ',')).length

def dropCommas (s : String) : String := String.mk (s.data.filter (· ≠ ','))

def commaToDot (s : String) : String :=
  String.mk (s.data.map fun c => if c = ',' then '.' else c)

/-- `_extract_amount`, translated clause by clause from the source. -/
def extract_amount (raw : Option String) : Option PyFloat :=
  match raw with
  | none => none
  | some r =>
    if !(pyTruthyStr r) then none
    else
      let s := amountKeep (pyStrip r)
      if s = "" then none
      else
        let s' :=
          if strContains s "," && strContains s "." then dropCommas s
          else if countComma s ≥ 2 then dropCommas s
          else if countComma s = 1 && !(strContains s ".") then commaToDot s
          else s
        pyFloat s'

/-- The amount disambiguation policy exactly as the specification words
it, written independently of `extract_amount` for comparison: strip all
characters but digits/comma/period, fail on empty, then (a) both comma
and period present: remove commas; (b) two or more commas: remove
commas; (c) exactly one comma, no period: comma becomes period;
(d) otherwise unchanged; finally parse as a float. -/
def claimedAmountPolicy (token : String) : Option PyFloat :=
  let s := amountKeep (pyStrip token)
  if s = "" then none
  else
    let s' :=
      if strContains s "," && strContains s "." then dropCommas s
      else if countComma s ≥ 2 then dropCommas s
      else if countComma s = 1 && !(strContains s ".") then commaToDot s
      else s
    pyFloat s'

/-! ### A fragment of Python's `re` module

The sources use `re.search` / `re.findall` with patterns built from
literals, escapes (`\b \d \s \w` and escaped punctuation), character
classes with ranges and negation, greedy quantifiers (`* + ?` and
counted braces), alternation, capturing and non-capturing groups, and
the `IGNORECASE` flag.  The matcher below implements exactly that
fragment with Python's backtracking priority: alternatives are tried
left to right, quantifiers are greedy, `re.search` returns the
leftmost match. -/

inductive ClassItem where
  | ch (c : Char)
  | range (lo hi : Char)
  | dcls
  | scls
  | wcls
deriving DecidableEq, Repr

inductive RE where
  | eps
  | ch (c : Char)
  | cls (neg : Bool) (items : List ClassItem)
  | dot
  | wordB
  | alt (a b : RE)
  | cat (a b : RE)
  | rep (lo : Nat) (hi : Option Nat) (r : RE)
  | grp (idx : Nat) (r : RE)
deriving DecidableEq, Repr

/-- Python's `\w` (ASCII). -/
def isWordChar (c : Char) : Bool := c.isAlphanum || c = '_'

/-- Case-insensitive-capable character comparison. -/
def eqCi (ci : Bool) (a b : Char) : Bool :=
  a = b || (ci && a.toLower = b.toLower)

def inRange (lo hi c : Char) : Bool := lo.toNat ≤ c.toNat && c.toNat ≤ hi.toNat

def classItemMatch (ci : Bool) (it : ClassItem) (c : Char) : Bool :=
  match it with
  | .ch d => eqCi ci d c
  | .range lo hi =>
    inRange lo hi c || (ci && (inRange lo hi c.toLower || inRange lo hi c.toUpper))
  | .dcls => c.isDigit
  | .scls => isPySpace c
  | .wcls => isWordChar c

def clsMatch (ci : Bool) (neg : Bool) (items : List ClassItem) (c : Char) : Bool :=
  let m := items.any (classItemMatch ci · c)
  if neg then !m else m

/-- `\b`: the word-character status differs between the previous and the
current position. -/
def wordBoundary (cs : List Char) (pos : Nat) : Bool :=
  let prevW := if pos = 0 then false else
    match cs.get? (pos - 1) with | some c => isWordChar c | none => false
  let curW := match cs.get? pos with | some c => isWordChar c | none => false
  prevW != curW

/-- Work items of the matcher: a regex to match, a pending capture-group
close, or a progress check guarding empty quantifier iterations. -/
inductive Frame where
  | re (r : RE)
  | closeG (idx : Nat) (start : Nat)
  | prog (p0 : Nat)
deriving Repr

def setCap (caps : List (Option (Nat × Nat))) (idx : Nat) (sp : Nat × Nat) :
    List (Option (Nat × Nat)) :=
  caps.set (idx - 1) (some sp)

/-- The backtracking matcher.  Returns the end position and the capture
list of the first (in Python priority order) way the frame list matches
the text starting at `pos`.  `fuel` bounds the length of one search
path; it is chosen large enough at every call site below. -/
def matchFrames (ci : Bool) (cs : List Char) :
    Nat → List Frame → Nat → List (Option (Nat × Nat)) →
    Option (Nat × List (Option (Nat × Nat)))
  | 0, _, _, _ => none
  | _ + 1, [], pos, caps => some (pos, caps)
  | fuel + 1, f :: rest, pos, caps =>
    match f with
    | .closeG i st => matchFrames ci cs fuel rest pos (setCap caps i (st, pos))
    | .prog p0 => if p0 < pos then matchFrames ci cs fuel rest pos caps else none
    | .re r =>
      match r with
      | .eps => matchFrames ci cs fuel rest pos caps
      | .ch c =>
        match cs.get? pos with
        | some d => if eqCi ci c d then matchFrames ci cs fuel rest (pos + 1) caps else none
        | none => none
      | .cls neg its =>
        match cs.get? pos with
        | some d => if clsMatch ci neg its d then matchFrames ci cs fuel rest (pos + 1) caps else none
        | none => none
      | .dot =>
        match cs.get? pos with
        | some d => if d = '\n' then none else matchFrames ci cs fuel rest (pos + 1) caps
        | none => none
      | .wordB =>
        if wordBoundary cs pos then matchFrames ci cs fuel rest pos caps else none
      | .alt a b =>
        match matchFrames ci cs fuel (.re a :: rest) pos caps with
        | some res => some res
        | none => matchFrames ci cs fuel (.re b :: rest) pos caps
      | .cat a b => matchFrames ci cs fuel (.re a :: .re b :: rest) pos caps
      | .grp i r => matchFrames ci cs fuel (.re r :: .closeG i pos :: rest) pos caps
      | .rep lo hi r =>
        match hi with
        | some 0 => matchFrames ci cs fuel rest pos caps
        | _ =>
          let hi' := hi.map (· - 1)
          if 0 < lo then
            matchFrames ci cs fuel (.re r :: .re (.rep (lo - 1) hi' r) :: rest) pos caps
          else
            match matchFrames ci cs fuel
                (.re r :: .prog pos :: .re (.rep 0 hi' r) :: rest) pos caps with
            | some res => some res
            | none => matchFrames ci cs fuel rest pos caps

/-- A regex match: the matched span and one optional span per capture
group of the pattern. -/
structure ReMatch where
  start : Nat
  stop : Nat
  groups : List (Option (Nat × Nat))
deriving DecidableEq, Repr

def RE.size : RE → Nat
  | .eps | .ch _ | .cls _ _ | .dot | .wordB => 1
  | .alt a b => a.size + b.size + 1
  | .cat a b => a.size + b.size + 1
  | .rep lo hi r => r.size + lo + (match hi with | some n => n | none => 0) + 2
  | .grp _ r => r.size + 2

/-- Fuel sufficient for one backtracking path over `cs` from any start
position. -/
def matchFuel (re : RE) (cs : List Char) : Nat :=
  (cs.length + 2) * (re.size + 8) * 4 + 64

/-- Try to match at one fixed position. -/
def matchAt (re : RE) (ng : Nat) (ci : Bool) (cs : List Char) (pos : Nat) :
    Option ReMatch :=
  match matchFrames ci cs (matchFuel re cs) [.re re] pos (List.replicate ng none) with
  | some (stop, caps) => some ⟨pos, stop, caps⟩
  | none => none

def searchFromAux (re : RE) (ng : Nat) (ci : Bool) (cs : List Char) :
    Nat → Nat → Option ReMatch
  | 0, _ => none
  | k + 1, pos =>
    match matchAt re ng ci cs pos with
    | some m => some m
    | none => searchFromAux re ng ci cs k (pos + 1)

/-- Leftmost match at position `≥ pos` (the scan `re.search` performs). -/
def searchFrom (re : RE) (ng : Nat) (ci : Bool) (cs : List Char) (pos : Nat) :
    Option ReMatch :=
  searchFromAux re ng ci cs (cs.length + 1 - pos) pos

/-! ### Pattern compilation

A recursive-descent parser for the pattern fragment used by the
sources.  An unsupported or malformed pattern (for instance the single
character `(`) fails to compile, which is precisely where `re.search`
raises `re.error` in Python. -/

def classEscape (c : Char) : ClassItem :=
  match c with
  | 'd' => .dcls
  | 's' => .scls
  | 'w' => .wcls
  | _ => .ch c

def parseClassItems : Nat → List Char → Option (List ClassItem × List Char)
  | 0, _ => none
  | _ + 1, [] => none
  | fuel + 1, c :: rest =>
    match c, rest with
    | ']', _ => some ([], rest)
    | '\\', e :: rest' => do
      let (its, rem) ← parseClassItems fuel rest'
      pure (classEscape e :: its, rem)
    | '\\', [] => none
    | a, '-' :: d :: rest' =>
      if d = ']' then do
        let (its, rem) ← parseClassItems fuel ('-' :: d :: rest')
        pure (.ch a :: its, rem)
      else do
        let (its, rem) ← parseClassItems fuel rest'
        pure (.range a d :: its, rem)
    | a, _ => do
      let (its, rem) ← parseClassItems fuel rest
      pure (.ch a :: its, rem)

/-- Parse a counted quantifier body after `{`; `none` means the brace is
not a well-formed bound (Python then treats `{` as a literal). -/
def parseBounds (cs : List Char) : Option (Nat × Option Nat × List Char) :=
  let ds1 := cs.takeWhile Char.isDigit
  let rest1 := cs.dropWhile Char.isDigit
  if ds1 = [] then none
  else
    let m := digitsVal ds1
    match rest1 with
    | '}' :: rem => some (m, some m, rem)
    | ',' :: rest2 =>
      let ds2 := rest2.takeWhile Char.isDigit
      let rest3 := rest2.dropWhile Char.isDigit
      match rest3 with
      | '}' :: rem => if ds2 = [] then some (m, none, rem) else some (m, some (digitsVal ds2), rem)
      | _ => none
    | _ => none

/-- Apply a parsed quantifier character sequence to an atom. -/
def applyQuant (a : RE) (cs : List Char) : RE × List Char :=
  match cs with
  | '*' :: rest => (.rep 0 none a, rest)
  | '+' :: rest => (.rep 1 none a, rest)
  | '?' :: rest => (.rep 0 (some 1) a, rest)
  | '{' :: rest =>
    match parseBounds rest with
    | some (m, hi, rem) => (.rep m hi a, rem)
    | none => (a, cs)
  | _ => (a, cs)

mutual

def parseAlt : Nat → Nat → List Char → Option (RE × Nat × List Char)
  | 0, _, _ => none
  | fuel + 1, g, cs => do
    let (r, g', rest) ← parseSeq fuel g cs
    match rest with
    | '|' :: rest' => do
      let (r2, g'', rest'') ← parseAlt fuel g' rest'
      pure (.alt r r2, g'', rest'')
    | _ => pure (r, g', rest)

def parseSeq : Nat → Nat → List Char → Option (RE × Nat × List Char)
  | 0, _, _ => none
  | fuel + 1, g, cs =>
    match cs with
    | [] => some (.eps, g, [])
    | '|' :: _ => some (.eps, g, cs)
    | ')' :: _ => some (.eps, g, cs)
    | _ => do
      let (a, g', rest) ← parseAtom fuel g cs
      let (aq, rest') := applyQuant a rest
      let (b, g'', rest'') ← parseSeq fuel g' rest'
      pure (.cat aq b, g'', rest'')

def parseAtom : Nat → Nat → List Char → Option (RE × Nat × List Char)
  | 0, _, _ => none
  | fuel + 1, g, cs =>
    match cs with
    | [] => none
    | '(' :: '?' :: ':' :: rest => do
      let (r, g', rest') ← parseAlt fuel g rest
      match rest' with
      | ')' :: rem => pure (r, g', rem)
      | _ => none
    | '(' :: '?' :: _ => none
    | '(' :: rest => do
      let (r, g', rest') ← parseAlt fuel (g + 1) rest
      match rest' with
      | ')' :: rem => pure (.grp g r, g', rem)
      | _ => none
    | '[' :: '^' :: rest => do
      let (its, rem) ← parseClassItems (rest.length + 1) rest
      pure (.cls true its, g, rem)
    | '[' :: rest => do
      let (its, rem) ← parseClassItems (rest.length + 1) rest
      pure (.cls false its, g, rem)
    | '\\' :: e :: rest =>
      match e with
      | 'b' => some (.wordB, g, rest)
      | 'd' => some (.cls false [.dcls], g, rest)
      | 's' => some (.cls false [.scls], g, rest)
      | 'w' => some (.cls false [.wcls], g, rest)
      | 'D' => some (.cls true [.dcls], g, rest)
      | 'S' => some (.cls true [.scls], g, rest)
      | 'W' => some (.cls true [.wcls], g, rest)
      | c => if c.isDigit then none else some (.ch c, g, rest)
    | '\\' :: [] => none
    | '.' :: rest => some (.dot, g, rest)
    | '^' :: _ => none
    | '$' :: _ => none
    | '*' :: _ => none
    | '+' :: _ => none
    | '?' :: _ => none
    | ')' :: _ => none
    | '|' :: _ => none
    | c :: rest => some (.ch c, g, rest)

end

/-- Compile a pattern string: the regex plus its number of capture
groups, or `none` where Python's `re.compile` raises. -/
def compile (pat : String) : Option (RE × Nat) :=
  match parseAlt (pat.length * 8 + 32) 1 pat.data with
  | some (r, g, []) => some (r, g - 1)
  | _ => none

/-- `re.search(pat, text)` on a compiled pattern. -/
def searchCompiled (re : RE) (ng : Nat) (ci : Bool) (t : String) : Option ReMatch :=
  searchFrom re ng ci t.data 0

/-- `re.search(pat, text)`: `none` both when the pattern does not occur
and (never reached below without a prior compile check) when the
pattern does not compile. -/
def reSearchP (pat : String) (t : String) : Option ReMatch :=
  match compile pat with
  | some (re, ng) => searchCompiled re ng true t
  | none => none

/-! ### `_first_match` (extraction.py lines 49-57) -/

/-- `m.group(g).strip()` under the `try/except` of `_first_match`: a
participating group yields its stripped text; `m.group(g)` raising
`IndexError` (group index beyond the pattern's groups) or the
`.strip()` call raising `AttributeError` (group present but it did not
participate, so `m.group(g)` is `None`) both fall back to
`m.group(0).strip()`, the stripped full match. -/
def fmGroupVal (m : ReMatch) (g : Nat) (t : String) : String :=
  match (if g = 0 then some (m.start, m.stop) else (m.groups.get? (g - 1)).join) with
  | some (a, b) => pyStrip (textSlice t.data a b)
  | none => pyStrip (textSlice t.data m.start m.stop)

/-- `_first_match`: try the patterns in order, return the group value of
the first pattern that matches anywhere in the text.  Compilation of a
pattern happens inside `re.search`, lazily, so an invalid pattern after
a matching one is never compiled; an invalid pattern reached before any
match raises (`Except.error`).  All call sites use `re.IGNORECASE`. -/
def first_match (pats : List String) (t : String) (g : Nat) :
    Except Unit (Option String) :=
  match pats with
  | [] => .ok none
  | p :: ps =>
    match compile p with
    | none => .error ()
    | some (re, ng) =>
      match searchCompiled re ng true t with
      | some m => .ok (some (fmGroupVal m g t))
      | none => first_match ps t g

/-! ### `re.findall` (used for `emails` and `phones`) -/

def findallAux (re : RE) (ng : Nat) (ci : Bool) (cs : List Char) :
    Nat → Nat → List String
  | 0, _ => []
  | k + 1, pos =>
    match searchFrom re ng ci cs pos with
    | none => []
    | some m =>
      let v :=
        if ng = 1 then
          match (m.groups.get? 0).join with
          | some (a, b) => textSlice cs a b
          | none => ""
        else textSlice cs m.start m.stop
      let next := if m.start < m.stop then m.stop else m.stop + 1
      v :: findallAux re ng ci cs k next

/-- `re.findall(pat, t)`: all non-overlapping matches left to right.
For the two patterns this is applied to (zero capture groups each) the
full match text is returned; a one-group pattern would return the group
text, as in Python.  The patterns are fixed valid literals, so the
compile-failure branch is unreachable at the call sites. -/
def findallS (pat : String) (t : String) (ci : Bool) : List String :=
  match compile pat with
  | none => []
  | some (re, ng) => findallAux re ng ci t.data (t.data.length + 2) 0

/-- Keep-first deduplication.  Python materialises a `set` here, whose
iteration order is implementation defined; the claims below depend only
on membership and emptiness of the result. -/
def dedupAux : List String → List String → List String
  | _, [] => []
  | seen, x :: xs =>
    if seen.contains x then dedupAux seen xs else x :: dedupAux (x :: seen) xs

def dedupKF (l : List String) : List String := dedupAux [] l

/-! ### `_extract_date` (extraction.py lines 85-92) -/

/-- Modelled from the spec: the source calls the external `dateutil`
parser (third-party, not part of this repository) with
`dayfirst=True, fuzzy=True` and renders `dt.date().isoformat()`.  The
spec states: parse with day-before-month ambiguity resolved day-first,
output `YYYY-MM-DD`, absent on failure.  The model covers the numeric
`day sep month sep year` tokens the date patterns produce with a
four-digit year, swapping day and month when the month position is not
a valid month; other token shapes are out of the claims' scope and
yield `none`. -/
def dateutilDayfirst (s : String) : Option String :=
  let fields := s.data.splitOnP (fun c => c = '/' || c = '-' || c = '.')
  match fields with
  | [p1, p2, p3] =>
    if p1 ≠ [] && p2 ≠ [] && p3.length = 4 &&
        p1.all Char.isDigit && p2.all Char.isDigit && p3.all Char.isDigit then
      let a := digitsVal p1
      let b := digitsVal p2
      let y := digitsVal p3
      let dm := if 1 ≤ b && b ≤ 12 then (a, b) else (b, a)
      if 1 ≤ dm.2 && dm.2 ≤ 12 && 1 ≤ dm.1 && dm.1 ≤ 31 then
        some (toString y ++ "-" ++ (if dm.2 < 10 then "0" else "") ++ toString dm.2
          ++ "-" ++ (if dm.1 < 10 then "0" else "") ++ toString dm.1)
      else none
    else none
  | _ => none

/-- `_extract_date`: `None` stays absent, empty strings are falsy, parse
failures are swallowed. -/
def extract_date (raw : Option String) : Option String :=
  match raw with
  | none => none
  | some s => if s = "" then none else dateutilDayfirst s

/-! ### `detect_document_type` (extraction.py lines 17-46) -/

def DOC_TYPES : List String :=
  ["invoice", "receipt", "purchase_order", "contract", "unknown"]

def kwInvoice : List String :=
  ["invoice", "inv#", "amount due", "bill to", "tax invoice", "vat"]

def kwReceipt : List String :=
  ["receipt", "thank you", "change", "cashier", "subtotal"]

def kwPurchaseOrder : List String :=
  ["purchase order", "po number", "ship to", "deliver to", "vendor"]

def kwContract : List String :=
  ["agreement", "party", "terms and conditions", "hereinafter", "whereas"]

/-- Per-category score: +2 for every keyword occurring as a substring of
the normalised text. -/
def keywordScore (t : String) (kws : List String) : Nat :=
  kws.foldl (fun s kw => if strContains t kw then s + 2 else s) 0

/-- `max(scores, key=scores.get)` over the insertion-ordered score dict:
the first key attaining the maximal value (Python's `max` replaces the
running best only on strictly greater values). -/
def pyArgmax (l : List (String × Nat)) : String × Nat :=
  match l with
  | [] => ("", 0)
  | x :: xs => xs.foldl (fun best kv => if best.2 < kv.2 then kv else best) x

def detect_document_type (text : String) : String :=
  let t := norm text
  let a := keywordScore t kwInvoice
  let b := keywordScore t kwReceipt
  let c := keywordScore t kwPurchaseOrder
  let d := keywordScore t kwContract
  let best := pyArgmax
    [("invoice", a), ("receipt", b), ("purchase_order", c), ("contract", d), ("unknown", 0)]
  if 0 < best.2 then best.1 else "unknown"

/-! ### `extract_fields` (extraction.py lines 95-202) -/

/-- Values of the result mapping: Python `None`, strings, floats
(modelled as rationals), lists of strings and the nested `custom`
string mapping. -/
inductive Value where
  | null
  | str (s : String)
  | num (q : PyFloat)
  | list (l : List String)
  | dict (d : List (String × String))
deriving DecidableEq, Repr

/-- The final cleanup predicate `v in (None, "", [], {})`. -/
def isNullish (v : Value) : Bool :=
  v = Value.null || v = Value.str "" || v = Value.list [] || v = Value.dict []

def optStrValue (o : Option String) : Value :=
  match o with | none => .null | some s => .str s

def optNumValue (o : Option PyFloat) : Value :=
  match o with | none => .null | some q => .num q

def emailPattern : String :=
  "[A-Z0-9._%+-]+@[A-Z0-9.-]+\\.[A-Z]\x7b2,\x7d"

def phonePattern : String :=
  "(?:\\+\\d\x7b1,3\x7d[\\s-]?)?\\d\x7b6,14\x7d"

def datePatterns : List String :=
  ["\\bdate\\s*[:\\-]?\\s*([0-9]\x7b1,2\x7d[\\/\\-.][0-9]\x7b1,2\x7d[\\/\\-.][0-9]\x7b2,4\x7d)\\b",
   "\\bdate\\s*[:\\-]?\\s*([0-9]\x7b1,2\x7d\\s+[A-Za-z]\x7b3,9\x7d\\s+[0-9]\x7b2,4\x7d)\\b"]

def invNoPatterns : List String :=
  ["\\binvoice\\s*(?:no|#|number)\\s*[:\\-]?\\s*([A-Z0-9\\-\\/]\x7b4,\x7d)\\b",
   "\\binv\\s*(?:no|#|number)?\\s*[:\\-]?\\s*([A-Z0-9\\-\\/]\x7b4,\x7d)\\b"]

def invDatePatterns : List String :=
  ["\\binvoice\\s*date\\s*[:\\-]?\\s*([0-9]\x7b1,2\x7d[\\/\\-.][0-9]\x7b1,2\x7d[\\/\\-.][0-9]\x7b2,4\x7d)\\b",
   "\\binvoice\\s*date\\s*[:\\-]?\\s*([0-9]\x7b1,2\x7d\\s+[A-Za-z]\x7b3,9\x7d\\s+[0-9]\x7b2,4\x7d)\\b"]

def dueDatePatterns : List String :=
  ["\\bdue\\s*date\\s*[:\\-]?\\s*([0-9]\x7b1,2\x7d[\\/\\-.][0-9]\x7b1,2\x7d[\\/\\-.][0-9]\x7b2,4\x7d)\\b",
   "\\bdue\\s*date\\s*[:\\-]?\\s*([0-9]\x7b1,2\x7d\\s+[A-Za-z]\x7b3,9\x7d\\s+[0-9]\x7b2,4\x7d)\\b"]

def currencyPatterns : List String :=
  ["\\b(usd|eur|gbp|inr|aed|sar|bhd|qar|omr|jod)\\b"]

def totalPatterns : List String :=
  ["\\b(total\\s*(?:amount)?|amount\\s*due)\\s*[:\\-]?\\s*([A-Z]\x7b0,3\x7d\\s?\\d[\\d,]*\\.?\\d\x7b0,2\x7d)\\b",
   "\\bgrand\\s*total\\s*[:\\-]?\\s*([A-Z]\x7b0,3\x7d\\s?\\d[\\d,]*\\.?\\d\x7b0,2\x7d)\\b"]

def grandTotalPatterns : List String :=
  ["\\bgrand\\s*total\\s*[:\\-]?\\s*([A-Z]\x7b0,3\x7d\\s?\\d[\\d,]*\\.?\\d\x7b0,2\x7d)\\b"]

def taxPatterns : List String :=
  ["\\b(vat|tax)\\s*[:\\-]?\\s*([A-Z]\x7b0,3\x7d\\s?\\d[\\d,]*\\.?\\d\x7b0,2\x7d)\\b"]

def poNoPatterns : List String :=
  ["\\bpo\\s*(?:no|#|number)\\s*[:\\-]?\\s*([A-Z0-9\\-\\/]\x7b4,\x7d)\\b",
   "\\bpurchase\\s*order\\s*(?:no|#|number)\\s*[:\\-]?\\s*([A-Z0-9\\-\\/]\x7b4,\x7d)\\b"]

/-- `out["emails"]`: case-insensitive matches, lower-cased,
de-duplicated. -/
def emailsOf (t : String) : List String :=
  dedupKF ((findallS emailPattern t true).map pyLower)

/-- `out["phones"]`: matches de-duplicated (no flags on this search). -/
def phonesOf (t : String) : List String :=
  dedupKF (findallS phonePattern t false)

/-- The generic `date` field value. -/
def dateField (t : String) : Except Unit Value := do
  let raw ← first_match datePatterns t 1
  pure (optStrValue (extract_date raw))

/-- `currency.upper() if currency else None`. -/
def currencyValue (o : Option String) : Value :=
  match o with
  | some s => if s = "" then .null else .str (pyUpper s)
  | none => .null

/-- The six invoice-specific fields, in insertion order. -/
def invoiceFields (t : String) : Except Unit (List (String × Value)) := do
  let invNo ← first_match invNoPatterns t 1
  let invDate ← first_match invDatePatterns t 1
  let dueDate ← first_match dueDatePatterns t 1
  let curr ← first_match currencyPatterns t 1
  let totalA ← first_match totalPatterns t 2
  let totalRaw ←
    if pyTruthyOpt totalA then pure totalA
    else do
      let tb ← first_match grandTotalPatterns t 1
      pure (pyOrOpt totalA tb)
  let taxRaw ← first_match taxPatterns t 2
  pure [("invoice_number", optStrValue invNo),
        ("invoice_date", optStrValue (extract_date invDate)),
        ("due_date", optStrValue (extract_date dueDate)),
        ("currency", currencyValue curr),
        ("total_amount", optNumValue (extract_amount totalRaw)),
        ("tax_amount", optNumValue (extract_amount taxRaw))]

def poFields (t : String) : Except Unit (List (String × Value)) := do
  let poNo ← first_match poNoPatterns t 1
  pure [("po_number", optStrValue poNo)]

/-- The document-type-specific fields. -/
def specificFields (t dt : String) : Except Unit (List (String × Value)) :=
  if dt = "invoice" then invoiceFields t
  else if dt = "purchase_order" then poFields t
  else pure []

/-- The custom-rule value chain
`_first_match(patterns, t, group=3) or ... or _first_match(patterns, t, group=0)`,
with Python's lazy `or`: later calls run only while the accumulated
value is falsy (`None` or the empty string). -/
def customValueE (pats : List String) (t : String) : Except Unit (Option String) := do
  let v3 ← first_match pats t 3
  if pyTruthyOpt v3 then pure v3
  else do
    let v2 ← first_match pats t 2
    if pyTruthyOpt v2 then pure v2
    else do
      let v1 ← first_match pats t 1
      if pyTruthyOpt v1 then pure v1
      else first_match pats t 0

/-- The custom-rule loop: one entry per rule whose chain value is not
`None` (an empty string is kept, as in the source). -/
def customFields (rules : List (String × List String)) (t : String) :
    Except Unit (List (String × String)) :=
  match rules with
  | [] => .ok []
  | (f, pats) :: rest => do
    let v ← customValueE pats t
    let tail ← customFields rest t
    pure (match v with | some s => (f, s) :: tail | none => tail)

/-- The full `out` mapping before the final cleanup, in Python's
insertion order. -/
def assembleOut (t dt : String) (rules : List (String × List String)) :
    Except Unit (List (String × Value)) := do
  let dv ← dateField t
  let spec ← specificFields t dt
  let custom ← customFields rules t
  pure ([("doc_type", Value.str dt),
         ("emails", Value.list (emailsOf t)),
         ("phones", Value.list (phonesOf t)),
         ("date", dv)] ++ spec ++
        (if custom.isEmpty then [] else [("custom", Value.dict custom)]))

/-- The final comprehension
`{k: v for k, v in out.items() if v not in (None, "", [], {})}`. -/
def cleanEmpties (l : List (String × Value)) : List (String × Value) :=
  l.filter fun kv => !(isNullish kv.2)

/-- `extract_fields`.  The error case is an exception escaping the
Python function (an invalid custom pattern reaching `re.search`). -/
def extract_fields (t dt : String) (rules : List (String × List String)) :
    Except Unit (List (String × Value)) :=
  (assembleOut t dt rules).map cleanEmpties

/-- First-occurrence association lookup (Python `dict` access on the
insertion-ordered pairs). -/
def lookupV : List (String × Value) → String → Option Value
  | [], _ => none
  | (k, v) :: rest, key => if k = key then some v else lookupV rest key

/-- Convenience accessor used by the concrete end-to-end statements. -/
def getField (e : Except Unit (List (String × Value))) (k : String) : Option Value :=
  match e with
  | .ok m => lookupV m k
  | .error _ => none

/-! ### OCR result normalisation (ocr_engine.py lines 95-145)

The raw engine output is an untyped Python value; the fragment of the
value universe that can flow through the normaliser is modelled by
`PyVal`. -/

inductive PyVal where
  | vNone
  | vStr (s : String)
  | vNum (q : PyFloat)
  | vTuple (l : List PyVal)
  | vList (l : List PyVal)

/-- Lines 118-121: `result = out[0] if isinstance(out, tuple) and
len(out) >= 1 else out`. -/
def unwrapOut (out : PyVal) : PyVal :=
  match out with
  | .vTuple (x :: _) => x
  | o => o

/-- Python truthiness of the raw result (`if result:`). -/
def pyTruthy (v : PyVal) : Bool :=
  match v with
  | .vNone => false
  | .vStr s => !(s = "")
  | .vNum q => !(q.mant = 0)
  | .vTuple l => !l.isEmpty
  | .vList l => !l.isEmpty

/-- `for item in result`: the items of an iterable value, `none` when
iteration would raise `TypeError`.  Iterating a string yields its
characters, as in Python. -/
def iterItems (v : PyVal) : Option (List PyVal) :=
  match v with
  | .vList l => some l
  | .vTuple l => some l
  | .vStr s => some (s.data.map fun c => .vStr (String.mk [c]))
  | _ => none

/-- `str(x)`.  Exact for strings and `None`; the renderings of numbers
and containers are approximations never exercised by the claims (the
well-formed detections of the claims carry string texts). -/
def pyStr (v : PyVal) : String :=
  match v with
  | .vStr s => s
  | .vNone => "None"
  | .vNum q => toString q.mant
  | .vTuple _ => "tuple"
  | .vList _ => "list"

/-- `float(x)`: numbers pass through, numeric strings are parsed,
anything else raises (`none`). -/
def pyFloatVal (v : PyVal) : Option PyFloat :=
  match v with
  | .vNum q => some q
  | .vStr s => pyFloat s
  | _ => none

/-- A normalised `OcrLine` (the dataclass of ocr_engine.py): the box is
kept as the raw engine value, the text is `str(txt)`, the score is
`float(score)`. -/
structure OcrLine where
  box : PyVal
  text : String
  score : PyFloat

/-- One loop body of lines 125-131: `box, txt, score = item` followed by
the conversions, `none` when any step raises and the detection is
skipped. -/
def parseDet (item : PyVal) : Option OcrLine :=
  match iterItems item with
  | some [b, tx, sc] =>
    match pyFloatVal sc with
    | some q => some ⟨b, pyStr tx, q⟩
    | none => none
  | _ => none

/-- The normalised line sequence of a detection list. -/
def ocrLinesOf (items : List PyVal) : List OcrLine :=
  items.filterMap parseDet

/-- Line 134: `"\n".join([ln.text for ln in lines if ln.text])`. -/
def fullTextOf (lines : List OcrLine) : String :=
  pyJoin "\n" ((lines.filter fun l => l.text ≠ "").map (fun l => l.text))

/-- Lines 114-134 of `ocr_image` after the engine call: unwrap the
outer shape, build the lines (an untruthy result yields none), join the
text.  Iterating a truthy non-iterable raises `TypeError`, uncaught. -/
def ocrNormalize (out : PyVal) : Except Unit (List OcrLine × String) :=
  let result := unwrapOut out
  if pyTruthy result then
    match iterItems result with
    | some items =>
      let lines := ocrLinesOf items
      .ok (lines, fullTextOf lines)
    | none => .error ()
  else .ok ([], fullTextOf [])

/-! ### Formalisations of the claims' own wording

These definitions follow the specification's words (not the source) and
are compared against the source-derived definitions above. -/

/-- The unwrap rule exactly as claimed: take the first element when the
outer shape is a tuple with 2 or more elements, else use as-is. -/
def claimedUnwrap (out : PyVal) : PyVal :=
  match out with
  | .vTuple (x :: _ :: _) => x
  | o => o

/-- Whether a value is a tuple with at least one element. -/
def isNonemptyTuple (v : PyVal) : Bool :=
  match v with
  | .vTuple (_ :: _) => true
  | _ => false

/-- The claimed reading of a capture group's contribution: the stripped
text of a participating group, and nothing (the empty string) for a
group that is absent from the pattern or did not participate. -/
def claimedGroupStr (m : ReMatch) (g : Nat) (t : String) : String :=
  match (m.groups.get? (g - 1)).join with
  | some (a, b) => pyStrip (textSlice t.data a b)
  | none => ""

/-- The custom-rule extraction policy exactly as claimed: take the
first pattern that matches, then the first non-empty result among group
3, group 2, group 1, and finally the full match. -/
def claimedCustomValue (pats : List String) (t : String) : Option String :=
  match pats with
  | [] => none
  | p :: ps =>
    match reSearchP p t with
    | some m =>
      let c3 := claimedGroupStr m 3 t
      let c2 := claimedGroupStr m 2 t
      let c1 := claimedGroupStr m 1 t
      some (if c3 ≠ "" then c3 else if c2 ≠ "" then c2 else if c1 ≠ "" then c1
            else pyStrip (textSlice t.data m.start m.stop))
    | none => claimedCustomValue ps t

/-- The tie-break of the classifier claim: the first category reaching
the maximum in the order invoice, receipt, purchase_order, contract. -/
def claimedFirstMax (a b c d : Nat) : String :=
  if b ≤ a ∧ c ≤ a ∧ d ≤ a then "invoice"
  else if c ≤ b ∧ d ≤ b then "receipt"
  else if d ≤ c then "purchase_order"
  else "contract"

/-- Independent formulation of a newline join, for comparison with
`pyJoin`. -/
def specJoinNL : List String → String
  | [] => ""
  | [x] => x
  | x :: y :: r => x ++ "\n" ++ specJoinNL (y :: r)

/-- Helper: the tail glue of a newline join. -/
def specTailNL : List String → String
  | [] => ""
  | y :: r => "\n" ++ y ++ specTailNL r

/-- The Python `or`-chain over the four stripped group values of one
match, as the source computes it (first truthy, else the last). -/
def pyOr4 (a b c d : String) : String :=
  if a ≠ "" then a else if b ≠ "" then b else if c ≠ "" then c else d

/-- The end-to-end input of the specification's test vector. -/
def c9Text : String :=
  "Invoice No: INV-12345\nAmount Due: USD 1,234.56\nInvoice Date: 12/11/2025\nVAT: USD 12.34"

/-- The full mapping `extract_fields` produces on `c9Text`. -/
def c9Expected : List (String × Value) :=
  [("doc_type", Value.str "invoice"),
   ("date", Value.str "2025-11-12"),
   ("invoice_number", Value.str "INV-12345"),
   ("invoice_date", Value.str "2025-11-12"),
   ("currency", Value.str "USD"),
   ("total_amount", Value.num ⟨123456, 2⟩),
   ("tax_amount", Value.num ⟨1234, 2⟩)]

/-! ## Helper lemmas -/

theorem pyJoin_foldl (xs : List String) (a : String) :
    xs.foldl (fun acc y => acc ++ "\n" ++ y) a = a ++ specTailNL xs := by
  induction xs generalizing a with
  | nil => simp [specTailNL, String.append_empty]
  | cons y r ih =>
    rw [List.foldl_cons, ih]
    simp only [specTailNL]
    simp [String.append_assoc]

theorem pyJoin_eq_specJoinNL (l : List String) : pyJoin "\n" l = specJoinNL l := by
  cases l with
  | nil => rfl
  | cons x xs =>
    rw [pyJoin, pyJoin_foldl]
    induction xs generalizing x with
    | nil => simp [specTailNL, specJoinNL, String.append_empty]
    | cons y r ih =>
      simp only [specTailNL, specJoinNL, ← ih]
      simp [String.append_assoc]

theorem filter_map_text (lines : List OcrLine) :
    (lines.filter fun l => l.text ≠ "").map (fun l => l.text) =
      (lines.map fun l => l.text).filter (· ≠ "") := by
  induction lines with
  | nil => rfl
  | cons x xs ih =>
    by_cases h : x.text = "" <;> simp_all [List.filter]

theorem filter_text_idem (lines : List OcrLine) :
    ((lines.filter fun l => l.text ≠ "").filter fun l => l.text ≠ "") =
      lines.filter fun l => l.text ≠ "" := by
  induction lines with
  | nil => rfl
  | cons x xs ih =>
    by_cases h : x.text = "" <;> simp_all [List.filter]

theorem exceptBind_ok {α β : Type} (e : Except Unit α) (f : α → Except Unit β)
    (b : β) (h : (e >>= f) = .ok b) : ∃ a, e = .ok a ∧ f a = .ok b := by
  cases e with
  | error u => simp [Bind.bind, Except.bind] at h
  | ok a => exact ⟨a, rfl, by simpa [Bind.bind, Except.bind] using h⟩

/-! ## Claim theorems -/

/-- C4: amount normalization keeps only digits, comma and period,
returns absent on an empty remainder, removes commas when a period is
also present or when at least two commas occur, turns a single
period-free comma into a period, leaves everything else unchanged, and
parses the result as a float; concretely "1,234.56" gives 1234.56,
"1234,56" gives 1234.56 and "1,234,567" gives 1234567.0.  The first
conjunct proves the source's `_extract_amount` equal to the policy as
the specification words it. -/
theorem c4_amount_normalization (raw : String) :
    extract_amount (some raw) = claimedAmountPolicy raw ∧
    extract_amount (some "1,234.56") = some ⟨123456, 2⟩ ∧
    PyFloat.toRat ⟨123456, 2⟩ = (123456 : ℚ) / 100 ∧

    extract_amount (some "1234,56") = some ⟨123456, 2⟩ ∧
    extract_amount (some "1,234,567") = some ⟨1234567, 0⟩ := by
  refine ⟨?_, by decide, by norm_num [PyFloat.toRat], by decide, by decide⟩
  rcases eq_or_ne raw "" with h | h
  · subst h; decide
  · simp [extract_amount, claimedAmountPolicy, pyTruthyStr, h]

/-- C3 counterexample: the claim says a 1-element tuple is used as-is,
but the source (`len(out) >= 1`) unwraps it: on `("r",)` the code
yields `"r"` while the claimed rule keeps the tuple. -/
theorem c3_counterexample :
    unwrapOut (PyVal.vTuple [PyVal.vStr "r"]) = PyVal.vStr "r" ∧
    claimedUnwrap (PyVal.vTuple [PyVal.vStr "r"]) = PyVal.vTuple [PyVal.vStr "r"] ∧
    unwrapOut (PyVal.vTuple [PyVal.vStr "r"]) ≠
      claimedUnwrap (PyVal.vTuple [PyVal.vStr "r"]) :=
  ⟨rfl, rfl, fun h => PyVal.noConfusion h⟩

/-- C3 amended: the normalizer takes the first element exactly when the
outer shape is a tuple with **one** or more elements; every other value
(including the empty tuple) is used as-is. -/
theorem c3_amended_unwrap (x : PyVal) (l : List PyVal) (o : PyVal)
    (h : isNonemptyTuple o = false) :
    unwrapOut (PyVal.vTuple (x :: l)) = x ∧ unwrapOut o = o := by
  refine ⟨rfl, ?_⟩
  cases o with
  | vTuple tl =>
    cases tl with
    | nil => rfl
    | cons a as => exact absurd h (by simp [isNonemptyTuple])
  | vNone => rfl
  | vStr s => rfl
  | vNum q => rfl
  | vList l' => rfl

theorem c3_amended_unwrap_witness :
    isNonemptyTuple (PyVal.vTuple []) = false ∧
    unwrapOut (PyVal.vTuple [PyVal.vStr "a", PyVal.vStr "b"]) = PyVal.vStr "a" ∧
    unwrapOut (PyVal.vTuple []) = PyVal.vTuple [] :=
  ⟨rfl, (c3_amended_unwrap (PyVal.vStr "a") [PyVal.vStr "b"] (PyVal.vTuple []) rfl).1,
    (c3_amended_unwrap (PyVal.vStr "a") [PyVal.vStr "b"] (PyVal.vTuple []) rfl).2⟩

/-- C5: a detection that fails to unpack is silently skipped and the
remaining detections keep their engine order; concretely, a list with
one well-formed and one wrong-arity entry normalizes to exactly the
well-formed line, with no exception. -/
theorem c5_malformed_detection_skipped (pre post : List PyVal) (bad : PyVal)
    (h : parseDet bad = none) :
    ocrLinesOf (pre ++ bad :: post) = ocrLinesOf pre ++ ocrLinesOf post ∧
    ocrNormalize (PyVal.vList
        [PyVal.vList [PyVal.vList [], PyVal.vStr "hello", PyVal.vNum ⟨9, 1⟩],
         PyVal.vList [PyVal.vStr "oops"]]) =
      .ok ([⟨PyVal.vList [], "hello", ⟨9, 1⟩⟩], "hello") := by
  constructor
  · simp [ocrLinesOf, List.filterMap_append, List.filterMap_cons, h]
  · rfl

theorem c5_malformed_detection_skipped_witness :
    parseDet (PyVal.vList [PyVal.vStr "oops"]) = none ∧
    ocrLinesOf ([PyVal.vList [PyVal.vList [], PyVal.vStr "hello", PyVal.vNum ⟨9, 1⟩]]
        ++ PyVal.vList [PyVal.vStr "oops"] :: []) =
      ocrLinesOf [PyVal.vList [PyVal.vList [], PyVal.vStr "hello", PyVal.vNum ⟨9, 1⟩]]
        ++ ocrLinesOf [] :=
  ⟨rfl, (c5_malformed_detection_skipped
      [PyVal.vList [PyVal.vList [], PyVal.vStr "hello", PyVal.vNum ⟨9, 1⟩]]
      [] (PyVal.vList [PyVal.vStr "oops"]) rfl).1⟩

/-- C7: the produced `full_text` equals the newline join of the
non-empty line texts in engine order, and re-normalizing (recomputing
the join over the kept lines) is idempotent. -/
theorem c7_full_text_join (lines : List OcrLine) :
    fullTextOf lines = specJoinNL ((lines.map fun l => l.text).filter (· ≠ "")) ∧
    fullTextOf (lines.filter fun l => l.text ≠ "") = fullTextOf lines := by
  constructor
  · rw [fullTextOf, pyJoin_eq_specJoinNL, filter_map_text]
  · rw [fullTextOf, fullTextOf, filter_text_idem]

theorem pyArgmax5_spec (a b c d : Nat) :
    (pyArgmax [("invoice", a), ("receipt", b), ("purchase_order", c),
      ("contract", d), ("unknown", 0)]).1 = claimedFirstMax a b c d ∧
    ((pyArgmax [("invoice", a), ("receipt", b), ("purchase_order", c),
      ("contract", d), ("unknown", 0)]).2 = 0 ↔ a = 0 ∧ b = 0 ∧ c = 0 ∧ d = 0) := by
  simp only [pyArgmax, List.foldl, claimedFirstMax]
  split_ifs <;> simp_all <;> omega

theorem claimedFirstMax_mem (a b c d : Nat) :
    claimedFirstMax a b c d ∈ DOC_TYPES := by
  simp only [claimedFirstMax]
  split_ifs <;> simp [DOC_TYPES]

theorem claimedFirstMax_ne_unknown (a b c d : Nat) :
    claimedFirstMax a b c d ≠ "unknown" := by
  simp only [claimedFirstMax]
  split_ifs <;> simp

/-- C1: for every text the classifier returns a value of the fixed
closed set; it returns `unknown` exactly when all four category scores
are zero; otherwise it returns the first category attaining the
maximal score in the order invoice, receipt, purchase_order,
contract. -/
theorem c1_detect_document_type (text : String) :
    detect_document_type text ∈ DOC_TYPES ∧
    (detect_document_type text = "unknown" ↔
      keywordScore (norm text) kwInvoice = 0 ∧ keywordScore (norm text) kwReceipt = 0 ∧
      keywordScore (norm text) kwPurchaseOrder = 0 ∧ keywordScore (norm text) kwContract = 0) ∧
    (¬(keywordScore (norm text) kwInvoice = 0 ∧ keywordScore (norm text) kwReceipt = 0 ∧
        keywordScore (norm text) kwPurchaseOrder = 0 ∧ keywordScore (norm text) kwContract = 0) →
      detect_document_type text =
        claimedFirstMax (keywordScore (norm text) kwInvoice) (keywordScore (norm text) kwReceipt)
          (keywordScore (norm text) kwPurchaseOrder) (keywordScore (norm text) kwContract)) := by
  set a := keywordScore (norm text) kwInvoice with ha
  set b := keywordScore (norm text) kwReceipt with hb
  set c := keywordScore (norm text) kwPurchaseOrder with hc
  set d := keywordScore (norm text) kwContract with hd
  obtain ⟨h1, h2⟩ := pyArgmax5_spec a b c d
  have hdet : detect_document_type text =
      if 0 < (pyArgmax [("invoice", a), ("receipt", b), ("purchase_order", c),
        ("contract", d), ("unknown", 0)]).2
      then (pyArgmax [("invoice", a), ("receipt", b), ("purchase_order", c),
        ("contract", d), ("unknown", 0)]).1
      else "unknown" := rfl
  rw [hdet, h1]
  by_cases hz : a = 0 ∧ b = 0 ∧ c = 0 ∧ d = 0
  · have : (pyArgmax [("invoice", a), ("receipt", b), ("purchase_order", c),
        ("contract", d), ("unknown", 0)]).2 = 0 := h2.2 hz
    rw [this]
    simp only [Nat.lt_irrefl, if_false]
    exact ⟨by simp [DOC_TYPES], by simp [hz], fun hcon => absurd hz hcon⟩
  · have hpos : 0 < (pyArgmax [("invoice", a), ("receipt", b), ("purchase_order", c),
        ("contract", d), ("unknown", 0)]).2 := by
      rcases Nat.eq_zero_or_pos (pyArgmax [("invoice", a), ("receipt", b),
          ("purchase_order", c), ("contract", d), ("unknown", 0)]).2 with h0 | h0
      · exact absurd (h2.1 h0) hz
      · exact h0
    rw [if_pos hpos]
    exact ⟨claimedFirstMax_mem a b c d,
      by simp [claimedFirstMax_ne_unknown a b c d, hz],
      fun _ => rfl⟩

theorem c1_detect_document_type_witness :
    detect_document_type "Invoice total due" = "invoice" ∧
    detect_document_type "hello" = "unknown" := by
  refine ⟨?_, ?_⟩
  · have h := (c1_detect_document_type "Invoice total due").2.2 (by decide)
    rw [h]; decide
  · exact (c1_detect_document_type "hello").2.1.2 (by decide)

theorem first_match_cons_nomatch {p : String} {t : String} (ps : List String) (g : Nat)
    (hc : (compile p).isSome = true) (hs : reSearchP p t = none) :
    first_match (p :: ps) t g = first_match ps t g := by
  obtain ⟨pr, hpr⟩ := Option.isSome_iff_exists.1 hc
  obtain ⟨re, ng⟩ := pr
  unfold reSearchP at hs
  rw [hpr] at hs
  simp only at hs
  simp only [first_match, hpr, hs]

theorem first_match_cons_match {p : String} {t : String} (ps : List String) (g : Nat)
    (h : (reSearchP p t).isSome = true) :
    first_match (p :: ps) t g = .ok (some (fmGroupVal ((reSearchP p t).get h) g t)) := by
  have hm : reSearchP p t = some ((reSearchP p t).get h) := (Option.some_get h).symm
  set m := (reSearchP p t).get h with hmdef
  unfold reSearchP at hm
  cases hc : compile p with
  | none => rw [hc] at hm; exact absurd hm (by simp)
  | some pr =>
    obtain ⟨re, ng⟩ := pr
    rw [hc] at hm
    simp only at hm
    simp only [first_match, hc, hm]

theorem customValueE_cons_nomatch {q : String} {t : String} (ps : List String)
    (hc : (compile q).isSome = true) (hs : reSearchP q t = none) :
    customValueE (q :: ps) t = customValueE ps t := by
  unfold customValueE
  rw [first_match_cons_nomatch ps 3 hc hs, first_match_cons_nomatch ps 2 hc hs,
    first_match_cons_nomatch ps 1 hc hs, first_match_cons_nomatch ps 0 hc hs]

/-- C2 counterexample: on the single 3-group pattern `x(a)(b)(c)?` and
the text `xab`, the match spans the whole text with group 1 = `"a"`
(span 1-2), group 2 = `"b"` (span 2-3) and group 3 present but not
participating (first conjunct).  Group 2's value `"b"` is non-empty
(second conjunct), so the claimed descending preference — group 3,
then 2, then 1, then full match, first non-empty result — yields `"b"`
(third conjunct, the claim's policy stated as `claimedCustomValue`).
The source instead answers the `AttributeError` of
`m.group(3).strip()` with the stripped full match: the or-chain, the
`_first_match`-based extractor and the final `extract_fields` output
all carry `"xab"`, never consulting group 2 (remaining conjuncts). -/
theorem c2_counterexample :
    reSearchP "x(a)(b)(c)?" "xab" =
      some ⟨0, 3, [some (1, 2), some (2, 3), none]⟩ ∧
    claimedGroupStr ⟨0, 3, [some (1, 2), some (2, 3), none]⟩ 2 "xab" = "b" ∧
    claimedCustomValue ["x(a)(b)(c)?"] "xab" = some "b" ∧
    customValueE ["x(a)(b)(c)?"] "xab" = .ok (some "xab") ∧
    getField (extract_fields "xab" "unknown" [("f", ["x(a)(b)(c)?"])]) "custom" =
      some (Value.dict [("f", "xab")]) ∧
    ("b" : String) ≠ "xab" :=
  ⟨rfl, rfl, rfl, rfl, rfl, by decide⟩

/-- C2 amended: `customValueE` is exactly the chain
`_first_match(patterns, t, 3) or ... or _first_match(patterns, t, 0)`
that `extract_fields` evaluates for every custom field.  For the first
pattern of the list that matches (after any earlier, compiling but
non-matching patterns), that chain attempts groups 3, 2, 1, 0 in
descending order as a Python `or`: the value of attempt `g` is the
stripped text of group `g` when that group participates, and otherwise
the stripped full match; the first non-empty such value (with the
group-0 value as final fallback) is returned.  A group that is absent
or did not participate therefore yields the full match at that attempt
instead of falling through to
lower group indices. -/
theorem c2_amended_custom_chain (pre : List String) (p : String) (ps : List String)
    (t : String)
    (hpre : ∀ q ∈ pre, (compile q).isSome = true ∧ reSearchP q t = none)
    (h : (reSearchP p t).isSome = true) :
    customValueE (pre ++ p :: ps) t =
      .ok (some (pyOr4 (fmGroupVal ((reSearchP p t).get h) 3 t)
        (fmGroupVal ((reSearchP p t).get h) 2 t)
        (fmGroupVal ((reSearchP p t).get h) 1 t)
        (fmGroupVal ((reSearchP p t).get h) 0 t))) := by
  induction pre with
  | cons q qs ih =>
    obtain ⟨hqc, hqs⟩ := hpre q (by simp)
    rw [List.cons_append, customValueE_cons_nomatch (qs ++ p :: ps) hqc hqs]
    exact ih (fun r hr => hpre r (by simp [hr]))
  | nil =>
    rw [List.nil_append]
    unfold customValueE
    rw [first_match_cons_match ps 3 h, first_match_cons_match ps 2 h,
      first_match_cons_match ps 1 h, first_match_cons_match ps 0 h]
    simp only [Bind.bind, Except.bind, Pure.pure, Except.pure, pyTruthyOpt, pyTruthyStr,
      pyOr4]
    split_ifs <;> simp_all

theorem c2_amended_custom_chain_witness :
    (∀ q ∈ ["zzz"], (compile q).isSome = true ∧ reSearchP q "xab" = none) ∧
    customValueE (["zzz"] ++ "x(a)(b)(c)?" :: []) "xab" = .ok (some "xab") := by
  refine ⟨by decide, ?_⟩
  have h := c2_amended_custom_chain ["zzz"] "x(a)(b)(c)?" [] "xab"
    (by decide) (by decide)
  rw [h]
  rfl

/-- C10 counterexample: on the single 1-group pattern `x(y)` and text
`xy`, an attempt at group 3 is out of range; the claim predicts a fall
through to group 1 (value `"y"`), but `_first_match` returns the full
match `"xy"` from its `except` clause. -/
theorem c10_counterexample :
    claimedCustomValue ["x(y)"] "xy" = some "y" ∧
    first_match ["x(y)"] "xy" 3 = .ok (some "xy") ∧
    getField (extract_fields "xy" "unknown" [("f", ["x(y)"])]) "custom" =
      some (Value.dict [("f", "xy")]) ∧
    ("y" : String) ≠ "xy" :=
  ⟨rfl, rfl, rfl, by decide⟩

/-- C10 amended: when the group index exceeds the number of capture
groups of the first matching pattern, `_first_match` returns the
stripped full match of that pattern immediately (the `IndexError` is
answered with `m.group(0)`); it does not treat the attempt as a
non-match and does not fall through to another group index. -/
theorem c10_amended_out_of_range_group (pre : List String) (p : String)
    (ps : List String) (t : String) (g : Nat)
    (hpre : ∀ q ∈ pre, (compile q).isSome = true ∧ reSearchP q t = none)
    (h : (reSearchP p t).isSome = true)
    (hg : ((reSearchP p t).get h).groups.length < g) :
    first_match (pre ++ p :: ps) t g =
      .ok (some (pyStrip (textSlice t.data ((reSearchP p t).get h).start
        ((reSearchP p t).get h).stop))) := by
  induction pre with
  | cons q qs ih =>
    obtain ⟨hqc, hqs⟩ := hpre q (by simp)
    rw [List.cons_append, first_match_cons_nomatch (qs ++ p :: ps) g hqc hqs]
    exact ih (fun r hr => hpre r (by simp [hr]))
  | nil =>
    rw [List.nil_append, first_match_cons_match ps g h]
    have hgz : g ≠ 0 := by omega
    have hnone : (((reSearchP p t).get h).groups.get? (g - 1)) = none :=
      List.get?_eq_none.2 (by omega)
    unfold fmGroupVal
    rw [if_neg hgz, hnone]
    rfl

theorem c10_amended_out_of_range_group_witness :
    (∀ q ∈ ([] : List String), (compile q).isSome = true ∧ reSearchP q "xy" = none) ∧
    first_match ([] ++ "x(y)" :: []) "xy" 3 = .ok (some "xy") := by
  refine ⟨by simp, ?_⟩
  have h := c10_amended_out_of_range_group [] "x(y)" [] "xy" 3
    (by simp) (by decide) (by decide)
  rw [h]
  rfl

theorem first_match_ok (pats : List String) (t : String) (g : Nat)
    (hc : ∀ p ∈ pats, (compile p).isSome = true) :
    ∃ r, first_match pats t g = .ok r := by
  induction pats with
  | nil => exact ⟨none, rfl⟩
  | cons p ps ih =>
    obtain ⟨pr, hpr⟩ := Option.isSome_iff_exists.1 (hc p (by simp))
    obtain ⟨re, ng⟩ := pr
    cases hs : searchCompiled re ng true t with
    | some m => exact ⟨some (fmGroupVal m g t), by simp only [first_match, hpr, hs]⟩
    | none =>
      obtain ⟨r, hr⟩ := ih (fun q hq => hc q (by simp [hq]))
      exact ⟨r, by simp only [first_match, hpr, hs]; exact hr⟩

theorem dateField_ok (t : String) : ∃ v, dateField t = .ok v := by
  obtain ⟨r, hr⟩ := first_match_ok datePatterns t 1 (by decide)
  exact ⟨optStrValue (extract_date r),
    by simp only [dateField, hr, Bind.bind, Except.bind, Pure.pure, Except.pure]⟩

theorem invoiceFields_ok (t : String) : ∃ l, invoiceFields t = .ok l := by
  obtain ⟨r1, h1⟩ := first_match_ok invNoPatterns t 1 (by decide)
  obtain ⟨r2, h2⟩ := first_match_ok invDatePatterns t 1 (by decide)
  obtain ⟨r3, h3⟩ := first_match_ok dueDatePatterns t 1 (by decide)
  obtain ⟨r4, h4⟩ := first_match_ok currencyPatterns t 1 (by decide)
  obtain ⟨r5, h5⟩ := first_match_ok totalPatterns t 2 (by decide)
  obtain ⟨r6, h6⟩ := first_match_ok grandTotalPatterns t 1 (by decide)
  obtain ⟨r7, h7⟩ := first_match_ok taxPatterns t 2 (by decide)
  by_cases ht : pyTruthyOpt r5 = true
  · refine ⟨[("invoice_number", optStrValue r1), ("invoice_date", optStrValue (extract_date r2)),
      ("due_date", optStrValue (extract_date r3)), ("currency", currencyValue r4),
      ("total_amount", optNumValue (extract_amount r5)),
      ("tax_amount", optNumValue (extract_amount r7))], ?_⟩
    simp only [invoiceFields, h1, h2, h3, h4, h5, h6, h7, Bind.bind, Except.bind,
      Pure.pure, Except.pure]
    rw [if_pos ht]
  · refine ⟨[("invoice_number", optStrValue r1), ("invoice_date", optStrValue (extract_date r2)),
      ("due_date", optStrValue (extract_date r3)), ("currency", currencyValue r4),
      ("total_amount", optNumValue (extract_amount (pyOrOpt r5 r6))),
      ("tax_amount", optNumValue (extract_amount r7))], ?_⟩
    simp only [invoiceFields, h1, h2, h3, h4, h5, h6, h7, Bind.bind, Except.bind,
      Pure.pure, Except.pure]
    rw [if_neg ht]

theorem poFields_ok (t : String) : ∃ l, poFields t = .ok l := by
  obtain ⟨r, hr⟩ := first_match_ok poNoPatterns t 1 (by decide)
  exact ⟨[("po_number", optStrValue r)],
    by simp only [poFields, hr, Bind.bind, Except.bind, Pure.pure, Except.pure]⟩

theorem specificFields_ok (t dt : String) : ∃ l, specificFields t dt = .ok l := by
  unfold specificFields
  by_cases h1 : dt = "invoice"
  · simpa [h1] using invoiceFields_ok t
  · by_cases h2 : dt = "purchase_order"
    · simpa [h1, h2] using poFields_ok t
    · exact ⟨[], by simp [h1, h2, Pure.pure, Except.pure]⟩

theorem customValueE_ok (pats : List String) (t : String)
    (hc : ∀ p ∈ pats, (compile p).isSome = true) :
    ∃ v, customValueE pats t = .ok v := by
  obtain ⟨v3, h3⟩ := first_match_ok pats t 3 hc
  obtain ⟨v2, h2⟩ := first_match_ok pats t 2 hc
  obtain ⟨v1, h1⟩ := first_match_ok pats t 1 hc
  obtain ⟨v0, h0⟩ := first_match_ok pats t 0 hc
  unfold customValueE
  simp only [h3, h2, h1, h0, Bind.bind, Except.bind, Pure.pure, Except.pure]
  by_cases t3 : pyTruthyOpt v3 = true
  · exact ⟨v3, by simp [t3]⟩
  · by_cases t2 : pyTruthyOpt v2 = true
    · exact ⟨v2, by simp [t3, t2]⟩
    · by_cases t1 : pyTruthyOpt v1 = true
      · exact ⟨v1, by simp [t3, t2, t1]⟩
      · exact ⟨v0, by simp [t3, t2, t1]⟩

theorem customFields_ok (rules : List (String × List String)) (t : String)
    (hc : ∀ fp ∈ rules, ∀ p ∈ fp.2, (compile p).isSome = true) :
    ∃ l, customFields rules t = .ok l := by
  induction rules with
  | nil => exact ⟨[], rfl⟩
  | cons fp rest ih =>
    obtain ⟨f, pats⟩ := fp
    obtain ⟨v, hv⟩ := customValueE_ok pats t (hc ⟨f, pats⟩ (by simp))
    obtain ⟨l, hl⟩ := ih (fun q hq => hc q (by simp [hq]))
    cases v with
    | some s => exact ⟨(f, s) :: l, by simp only [customFields, hv, hl, Bind.bind,
        Except.bind, Pure.pure, Except.pure]⟩
    | none => exact ⟨l, by simp only [customFields, hv, hl, Bind.bind, Except.bind,
        Pure.pure, Except.pure]⟩

theorem assembleOut_ok (t dt : String) (rules : List (String × List String))
    (hc : ∀ fp ∈ rules, ∀ p ∈ fp.2, (compile p).isSome = true) :
    ∃ out, assembleOut t dt rules = .ok out := by
  obtain ⟨dv, hdv⟩ := dateField_ok t
  obtain ⟨spec, hspec⟩ := specificFields_ok t dt
  obtain ⟨custom, hcustom⟩ := customFields_ok rules t hc
  exact ⟨[("doc_type", Value.str dt), ("emails", Value.list (emailsOf t)),
      ("phones", Value.list (phonesOf t)), ("date", dv)] ++ spec ++
      (if custom.isEmpty then [] else [("custom", Value.dict custom)]),
    by simp only [assembleOut, hdv, hspec, hcustom, Bind.bind, Except.bind, Pure.pure,
      Except.pure]⟩

/-- C8 counterexample: an invalid custom pattern reaches `re.search`
outside any `try`, so `extract_fields` raises (`re.error`) instead of
degrading to an absent field. -/
theorem c8_counterexample :
    extract_fields "" "unknown" [("f", ["("])] = .error () := rfl

/-- C8 amended: `extract_fields` raises no exception as long as every
custom-rule pattern is a syntactically valid regular expression; every
internal extraction or normalization failure then degrades to the
field being absent.  (With an invalid custom pattern the compile error
escapes, see the counterexample.) -/
theorem c8_amended_no_exception (t dt : String) (rules : List (String × List String))
    (hc : ∀ fp ∈ rules, ∀ p ∈ fp.2, (compile p).isSome = true) :
    ∃ m, extract_fields t dt rules = .ok m := by
  obtain ⟨out, hout⟩ := assembleOut_ok t dt rules hc
  exact ⟨cleanEmpties out, by simp only [extract_fields, hout, Except.map]⟩

theorem c8_amended_no_exception_witness :
    (∀ fp ∈ [("f", ["a"])], ∀ p ∈ fp.2, (compile p).isSome = true) ∧
    ∃ m, extract_fields "b" "unknown" [("f", ["a"])] = .ok m :=
  ⟨by decide, c8_amended_no_exception "b" "unknown" [("f", ["a"])] (by decide)⟩

/-- C6: for a document type of the closed set, every successful result
of `extract_fields` contains the key `doc_type` (with the given type),
and no key of the result carries a null, empty-string, empty-list or
empty-mapping value: absence is the only encoding of "not found". -/
theorem c6_output_invariant (t dt : String) (rules : List (String × List String))
    (m : List (String × Value)) (hdt : dt ∈ DOC_TYPES)
    (h : extract_fields t dt rules = .ok m) :
    lookupV m "doc_type" = some (Value.str dt) ∧
    ∀ kv ∈ m, isNullish kv.2 = false := by
  have hnn : isNullish (Value.str dt) = false := by
    simp only [DOC_TYPES, List.mem_cons, List.not_mem_nil, or_false] at hdt
    rcases hdt with h1 | h1 | h1 | h1 | h1 <;> subst h1 <;> decide
  unfold extract_fields at h
  cases ha : assembleOut t dt rules with
  | error e => rw [ha] at h; simp [Except.map] at h
  | ok out =>
    rw [ha] at h
    simp only [Except.map, Except.ok.injEq] at h
    subst h
    unfold assembleOut at ha
    obtain ⟨dv, hdv, h2⟩ := exceptBind_ok _ _ _ ha
    obtain ⟨spec, hspec, h3⟩ := exceptBind_ok _ _ _ h2
    obtain ⟨custom, hcustom, h4⟩ := exceptBind_ok _ _ _ h3
    have hout : out = ([("doc_type", Value.str dt), ("emails", Value.list (emailsOf t)),
        ("phones", Value.list (phonesOf t)), ("date", dv)] ++ spec ++
        (if custom.isEmpty then [] else [("custom", Value.dict custom)])) := by
      have h5 : Except.ok ([("doc_type", Value.str dt), ("emails", Value.list (emailsOf t)),
          ("phones", Value.list (phonesOf t)), ("date", dv)] ++ spec ++
          (if custom.isEmpty then [] else [("custom", Value.dict custom)])) =
          Except.ok out := h4
      injection h5 with h6
      exact h6.symm
    constructor
    · rw [hout]
      simp [cleanEmpties, List.filter_cons, hnn, lookupV]
    · intro kv hkv
      have := (List.mem_filter.1 hkv).2
      simpa using this

theorem c6_output_invariant_witness :
    ("invoice" ∈ DOC_TYPES ∧
      extract_fields "" "invoice" [] = .ok [("doc_type", Value.str "invoice")]) ∧
    lookupV [("doc_type", Value.str "invoice")] "doc_type" = some (Value.str "invoice") ∧
    ∀ kv ∈ [("doc_type", Value.str "invoice")], isNullish kv.2 = false :=
  ⟨⟨by decide, rfl⟩, c6_output_invariant "" "invoice" [] _ (by decide) rfl⟩

/-- C9: on the specification's end-to-end input with `doc_type`
"invoice", extraction yields invoice_number `INV-12345`, total_amount
1234.56 (mantissa 123456, scale 2), tax_amount 12.34 (mantissa 1234,
scale 2), and invoice_date `2025-11-12`; day-first normalization of
`12/11/2025` gives `2025-11-12`.  The `toRat` conjuncts state the
decimal values the two floats denote. -/
theorem c9_end_to_end :
    getField (extract_fields c9Text "invoice" []) "invoice_number" =
      some (Value.str "INV-12345") ∧
    getField (extract_fields c9Text "invoice" []) "total_amount" =
      some (Value.num ⟨123456, 2⟩) ∧
    getField (extract_fields c9Text "invoice" []) "tax_amount" =
      some (Value.num ⟨1234, 2⟩) ∧
    getField (extract_fields c9Text "invoice" []) "invoice_date" =
      some (Value.str "2025-11-12") ∧
    extract_date (some "12/11/2025") = some "2025-11-12" ∧
    PyFloat.toRat ⟨123456, 2⟩ = (123456 : ℚ) / 100 ∧
    PyFloat.toRat ⟨1234, 2⟩ = (1234 : ℚ) / 100 := by
  have h : extract_fields c9Text "invoice" [] = .ok c9Expected := rfl
  refine ⟨?_, ?_, ?_, ?_, rfl, by norm_num [PyFloat.toRat], by norm_num [PyFloat.toRat]⟩ <;>
    · unfold getField
      rw [h]
      rfl

end IntelliDocX
